import Mathlib

/-!
Verification of the meeting-page session state synchronizer of the
NomadSync front-end.  The definitions below are a shallow embedding of
the event handlers in `src/y/app/meeting/page.tsx` and of the research
stream in `src/y/app/api/research-itinerary/route.ts`.  JavaScript
arrays become Lean lists, objects become structures, optional or
possibly-`undefined` fields become `Option`, and JavaScript truthiness
on strings (where the empty string is falsy) is modelled explicitly.
-/

namespace NomadSync

/-- Characters of a string after JavaScript `toLowerCase`. -/
def lowerChars (s : String) : List Char :=
  s.data.map Char.toLower

/-- Embedding of the prefix test underlying JavaScript `String.includes`:
`hasPrefixChars l pat` holds when `pat` is an initial segment of `l`. -/
def hasPrefixChars : List Char → List Char → Bool
  | _, [] => true
  | [], _ :: _ => false
  | a :: as, b :: bs => a == b && hasPrefixChars as bs

/-- Embedding of JavaScript `hay.includes(pat)`: `pat` occurs as a
contiguous substring of `hay`. -/
def containsChars : List Char → List Char → Bool
  | [], pat => pat.isEmpty
  | a :: rest, pat => hasPrefixChars (a :: rest) pat || containsChars rest pat

theorem hasPrefixChars_iff (l pat : List Char) :
    hasPrefixChars l pat = true ↔ ∃ post, l = pat ++ post := by
  induction pat generalizing l with
  | nil =>
    simp [hasPrefixChars]
  | cons b bs ih =>
    cases l with
    | nil =>
      simp [hasPrefixChars]
    | cons a as =>
      simp only [hasPrefixChars, Bool.and_eq_true, beq_iff_eq, ih]
      constructor
      · rintro ⟨hab, post, hpost⟩
        exact ⟨post, by simp [hab, hpost]⟩
      · rintro ⟨post, hpost⟩
        rw [List.cons_append] at hpost
        injection hpost with h1 h2
        exact ⟨h1, post, h2⟩

theorem containsChars_iff (l pat : List Char) :
    containsChars l pat = true ↔ ∃ pre post, l = pre ++ pat ++ post := by
  induction l with
  | nil =>
    simp only [containsChars, List.isEmpty_iff]
    constructor
    · rintro rfl
      exact ⟨[], [], rfl⟩
    · rintro ⟨pre, post, h⟩
      rcases List.append_eq_nil.mp (List.append_eq_nil.mp h.symm).1 with ⟨-, h2⟩
      exact h2
  | cons a rest ih =>
    simp only [containsChars, Bool.or_eq_true, hasPrefixChars_iff, ih]
    constructor
    · rintro (⟨post, h⟩ | ⟨pre, post, h⟩)
      · exact ⟨[], post, by simpa using h⟩
      · exact ⟨a :: pre, post, by simp [h]⟩
    · rintro ⟨pre, post, h⟩
      cases pre with
      | nil =>
        exact Or.inl ⟨post, by simpa using h⟩
      | cons x xs =>
        rw [List.cons_append, List.cons_append] at h
        injection h with h1 h2
        exact Or.inr ⟨xs, post, h2⟩

/-- Itinerary item as declared in `itinerary-panel.tsx` / the meeting page. -/
structure ItineraryItem where
  id : String
  name : String
  itemType : String
  estimatedCost : Int
  costLabel : String
  location : Option String
  coordinates : Option (List Int)
deriving DecidableEq

/-- Embedding of both the `ITINERARY_ADD` data-channel branch and the local
`handleAddToItinerary` callback: the item is appended unless an item with
the same `id` is already present. -/
def addToItinerary (itin : List ItineraryItem) (item : ItineraryItem) :
    List ItineraryItem :=
  if itin.any (fun i => i.id == item.id) then itin else itin ++ [item]

/-- Predicate used by the `ITINERARY_REMOVE` branch: the lowercased item
name contains the lowercased requested name as a substring. -/
def matchesRemove (s : String) (i : ItineraryItem) : Bool :=
  containsChars (lowerChars i.name) (lowerChars s)

/-- Embedding of the `ITINERARY_REMOVE` data-channel branch: keep exactly
the items whose lowercased name does not contain the lowercased
`item_name`. -/
def removeFromItinerary (itin : List ItineraryItem) (s : String) :
    List ItineraryItem :=
  itin.filter (fun i => !(matchesRemove s i))

theorem mem_ids_iff_any (itin : List ItineraryItem) (x : String) :
    itin.any (fun i => i.id == x) = true ↔ x ∈ itin.map (·.id) := by
  simp only [List.any_eq_true, beq_iff_eq, List.mem_map]

theorem addToItinerary_ids (itin : List ItineraryItem) (item : ItineraryItem) :
    (addToItinerary itin item).map (·.id) =
      if item.id ∈ itin.map (·.id) then itin.map (·.id)
      else itin.map (·.id) ++ [item.id] := by
  unfold addToItinerary
  by_cases h : item.id ∈ itin.map (·.id)
  · rw [if_pos ((mem_ids_iff_any itin item.id).mpr h), if_pos h]
  · rw [if_neg (fun hc => h ((mem_ids_iff_any itin item.id).mp hc)), if_neg h]
    simp

theorem addToItinerary_nodup (itin : List ItineraryItem) (item : ItineraryItem)
    (h : (itin.map (·.id)).Nodup) :
    ((addToItinerary itin item).map (·.id)).Nodup := by
  rw [addToItinerary_ids]
  by_cases hm : item.id ∈ itin.map (·.id)
  · rwa [if_pos hm]
  · rw [if_neg hm, List.nodup_append]
    refine ⟨h, List.nodup_singleton _, ?_⟩
    intro a ha hb
    rw [List.mem_singleton] at hb
    subst hb
    exact hm ha

theorem foldl_addToItinerary_mem (its : List ItineraryItem) :
    ∀ (acc : List ItineraryItem) (x : String),
      (x ∈ (its.foldl addToItinerary acc).map (·.id) ↔
        x ∈ acc.map (·.id) ∨ x ∈ its.map (·.id)) := by
  induction its with
  | nil => simp
  | cons i is ih =>
    intro acc x
    rw [List.foldl_cons, ih]
    rw [addToItinerary_ids]
    by_cases hm : i.id ∈ acc.map (·.id)
    · rw [if_pos hm]
      simp only [List.map_cons, List.mem_cons]
      constructor
      · rintro (h | h)
        · exact Or.inl h
        · exact Or.inr (Or.inr h)
      · rintro (h | rfl | h)
        · exact Or.inl h
        · exact Or.inl hm
        · exact Or.inr h
    · rw [if_neg hm]
      simp only [List.map_cons, List.mem_cons, List.mem_append,
        List.mem_singleton]
      tauto

theorem foldl_addToItinerary_nodup (its : List ItineraryItem) :
    ∀ acc : List ItineraryItem, (acc.map (·.id)).Nodup →
      ((its.foldl addToItinerary acc).map (·.id)).Nodup := by
  induction its with
  | nil => intro acc h; simpa using h
  | cons i is ih =>
    intro acc h
    rw [List.foldl_cons]
    exact ih _ (addToItinerary_nodup acc i h)

/-- C3: for every sequence of `ITINERARY_ADD` events or local add actions
(starting from the empty itinerary), the resulting itinerary has pairwise
distinct item ids, exactly the ids of the items that were ever added
appear, a duplicate add (an item whose id is already present) is a no-op,
and a single add preserves the distinct-id invariant. -/
theorem itinerary_add_idempotent_unique :
    (∀ (its : List ItineraryItem),
      ((its.foldl addToItinerary []).map (·.id)).Nodup ∧
      (∀ x, x ∈ (its.foldl addToItinerary []).map (·.id) ↔
        x ∈ its.map (·.id))) ∧
    (∀ (itin : List ItineraryItem) (item : ItineraryItem),
      itin.any (fun i => i.id == item.id) = true →
        addToItinerary itin item = itin) ∧
    (∀ (itin : List ItineraryItem) (item : ItineraryItem),
      (itin.map (·.id)).Nodup →
        ((addToItinerary itin item).map (·.id)).Nodup) := by
  refine ⟨fun its => ⟨foldl_addToItinerary_nodup its [] (by simp), ?_⟩, ?_, ?_⟩
  · intro x
    rw [foldl_addToItinerary_mem]
    simp
  · intro itin item h
    unfold addToItinerary
    rw [if_pos h]
  · intro itin item h
    exact addToItinerary_nodup itin item h

/-- Witness for C3: adding the same concrete item twice yields the same
itinerary as adding it once. -/
theorem itinerary_add_idempotent_unique_witness :
    addToItinerary [⟨"r1", "Sushi Fumi", "restaurant", 40, "$40", none,
      some [34, -118]⟩] ⟨"r1", "Sushi Fumi", "restaurant", 40, "$40", none,
      some [34, -118]⟩ =
      [⟨"r1", "Sushi Fumi", "restaurant", 40, "$40", none, some [34, -118]⟩] :=
  itinerary_add_idempotent_unique.2.1 _ _ (by decide)

/-- C4: `ITINERARY_REMOVE` with `item_name` `s` keeps exactly the items
whose lowercased name does not contain the lowercased `s` as a contiguous
substring; the removal is order preserving (the result is a sublist) and
is a no-op when no item name matches. -/
theorem itinerary_remove_fuzzy_match :
    ∀ (itin : List ItineraryItem) (s : String),
      (∀ i, i ∈ removeFromItinerary itin s ↔
        (i ∈ itin ∧
          ¬ ∃ pre post, lowerChars i.name = pre ++ lowerChars s ++ post)) ∧
      (removeFromItinerary itin s).Sublist itin ∧
      ((∀ i ∈ itin, matchesRemove s i = false) →
        removeFromItinerary itin s = itin) := by
  intro itin s
  refine ⟨?_, List.filter_sublist itin, ?_⟩
  · intro i
    simp only [removeFromItinerary, List.mem_filter, Bool.not_eq_true',
      ← containsChars_iff, matchesRemove]
    constructor
    · rintro ⟨h1, h2⟩
      exact ⟨h1, by simp [h2]⟩
    · rintro ⟨h1, h2⟩
      refine ⟨h1, ?_⟩
      cases hc : containsChars (lowerChars i.name) (lowerChars s)
      · rfl
      · exact absurd hc h2
  · intro h
    unfold removeFromItinerary
    rw [List.filter_eq_self]
    intro i hi
    simp [h i hi]

/-- Witness for C4: removing a name that matches no item leaves a concrete
itinerary unchanged. -/
theorem itinerary_remove_fuzzy_match_witness :
    removeFromItinerary [⟨"h1", "Grand Hotel", "hotel", 200, "$200", none,
      some [34, -118]⟩] "sushi" =
      [⟨"h1", "Grand Hotel", "hotel", 200, "$200", none, some [34, -118]⟩] :=
  (itinerary_remove_fuzzy_match _ "sushi").2.2 (by decide)

theorem containsChars_nil_pat (l : List Char) : containsChars l [] = true := by
  cases l with
  | nil => rfl
  | cons a rest => rfl

/-- C10: an `ITINERARY_REMOVE` event whose `item_name` is the empty string
empties the itinerary: every lowercased name contains the empty substring,
so the filter drops every item. -/
theorem itinerary_remove_empty_string_wipes :
    ∀ itin : List ItineraryItem, removeFromItinerary itin "" = [] := by
  intro itin
  unfold removeFromItinerary
  rw [List.filter_eq_nil_iff]
  intro i hi
  simp [matchesRemove, lowerChars, containsChars_nil_pat]

/-- JavaScript truthiness of an optional string: `undefined` and the empty
string are falsy. -/
def strTruthy : Option String → Bool
  | some s => !s.isEmpty
  | none => false

/-- Embedding of `x || null` on an optional string field. -/
def jsStrOrNone (o : Option String) : Option String :=
  match o with
  | some s => if s.isEmpty then none else some s
  | none => none

/-- Embedding of `x || d` on an optional string field. -/
def jsOrStr (o : Option String) (d : String) : String :=
  match o with
  | some s => if s.isEmpty then d else s
  | none => d

/-- Tool-notification entry shown in the snackbar. -/
structure ToolNotification where
  id : String
  tool : String
  message : String
  icon : String
deriving DecidableEq

/-- The `toolDisplayInfo` lookup table with its default entry: message and
icon for a tool name. -/
def toolInfo (t : String) : String × String :=
  if t == "search_restaurants" then ("Searching for restaurants...", "🍽️")
  else if t == "get_activities" then ("Finding activities...", "🎯")
  else if t == "search_hotels" then ("Looking for hotels...", "🏨")
  else if t == "update_map" then ("Updating route...", "🗺️")
  else if t == "get_location_coordinates" then ("Finding location...", "📍")
  else if t == "add_to_itinerary" then ("Adding to itinerary...", "📋")
  else if t == "remove_from_itinerary" then ("Removing from itinerary...", "🗑️")
  else if t == "clear_itinerary" then ("Clearing itinerary...", "🧹")
  else ("Running " ++ String.mk (t.data.map (fun c => if c = '_' then ' ' else c))
    ++ "...", "⚙️")

/-- Notification built in the `AGENT_STATE` branch; the fresh id stands for
the `Date.now()`-and-random id generated there. -/
def mkToolNotification (freshId t : String) : ToolNotification :=
  { id := freshId, tool := t, message := (toolInfo t).1, icon := (toolInfo t).2 }

/-- Embedding of `setToolNotifications(prev => [...prev.slice(-2), n])`:
keep at most the last two entries and append the new one. -/
def pushToolNotification (q : List ToolNotification) (n : ToolNotification) :
    List ToolNotification :=
  q.drop (q.length - 2) ++ [n]

/-- Agent-related view state of the meeting page. -/
structure AgentUi where
  agentState : String
  agentThinkingMessage : Option String
  currentTool : Option String
  toolNotifications : List ToolNotification
deriving DecidableEq

/-- Inbound `AGENT_STATE` event payload. -/
structure AgentStateEvent where
  state : Option String
  thinking_message : Option String
  tool_name : Option String
deriving DecidableEq

/-- Condition `data.tool_name && data.state === "thinking"` guarding the
notification push. -/
def agentPushCond (e : AgentStateEvent) : Bool :=
  strTruthy e.tool_name && (e.state == some "thinking")

/-- Embedding of the `AGENT_STATE` branch of the data-channel handler:
overwrite the agent status fields, and push a tool notification when a
tool name is present and the state is `thinking`. -/
def applyAgentState (st : AgentUi) (e : AgentStateEvent) (freshId : String) :
    AgentUi :=
  let base : AgentUi :=
    { st with
      agentState := jsOrStr e.state "idle"
      agentThinkingMessage := jsStrOrNone e.thinking_message
      currentTool := jsStrOrNone e.tool_name }
  if agentPushCond e then
    { base with toolNotifications :=
        (pushToolNotification base.toolNotifications
          (mkToolNotification freshId (e.tool_name.getD ""))) }
  else base

theorem pushToolNotification_length (q : List ToolNotification)
    (n : ToolNotification) : (pushToolNotification q n).length ≤ 3 := by
  unfold pushToolNotification
  rw [List.length_append, List.length_drop]
  simp only [List.length_singleton]
  omega

theorem applyAgentState_toolNotifications_length (st : AgentUi)
    (e : AgentStateEvent) (fid : String)
    (h : st.toolNotifications.length ≤ 3) :
    (applyAgentState st e fid).toolNotifications.length ≤ 3 := by
  unfold applyAgentState
  cases hc : agentPushCond e
  · simpa using h
  · simpa using pushToolNotification_length _ _

theorem strTruthy_false_of_jsStrOrNone_none (o : Option String)
    (h : jsStrOrNone o = none) : strTruthy o = false := by
  cases o with
  | none => rfl
  | some s =>
    by_cases he : s.isEmpty = true
    · simp [strTruthy, he]
    · exfalso
      simp [jsStrOrNone, he] at h

/-- C7: the tool-notification queue is bounded by 3: a push keeps at most
the last two old entries plus the new one, a push onto a full queue drops
exactly the oldest entry (FIFO), an `AGENT_STATE` event without a truthy
tool name or whose state is not `thinking` leaves the queue unchanged, and
any sequence of `AGENT_STATE` events starting from a queue of at most 3
entries keeps the queue at most 3 entries long. -/
theorem tool_notifications_bounded_fifo :
    (∀ (q : List ToolNotification) (n : ToolNotification),
      (pushToolNotification q n).length ≤ 3) ∧
    (∀ (q : List ToolNotification) (n : ToolNotification),
      q.length = 3 → pushToolNotification q n = q.tail ++ [n]) ∧
    (∀ (st : AgentUi) (e : AgentStateEvent) (fid : String),
      (jsStrOrNone e.tool_name = none ∨ e.state ≠ some "thinking") →
        (applyAgentState st e fid).toolNotifications = st.toolNotifications) ∧
    (∀ (evs : List (AgentStateEvent × String)) (st : AgentUi),
      st.toolNotifications.length ≤ 3 →
        ((evs.foldl (fun s p => applyAgentState s p.1 p.2)
          st).toolNotifications.length ≤ 3)) := by
  refine ⟨pushToolNotification_length, ?_, ?_, ?_⟩
  · intro q n h
    unfold pushToolNotification
    rw [h]
    rw [show (3 : Nat) - 2 = 1 from rfl, List.drop_one]
  · intro st e fid h
    have hc : agentPushCond e = false := by
      unfold agentPushCond
      rcases h with h | h
      · rw [strTruthy_false_of_jsStrOrNone_none _ h, Bool.false_and]
      · have : (e.state == some "thinking") = false := by
          cases hb : e.state == some "thinking"
          · rfl
          · exact absurd (beq_iff_eq.mp hb) h
        rw [this, Bool.and_false]
    simp [applyAgentState, hc]
  · intro evs
    induction evs with
    | nil => intro st h; simpa using h
    | cons p ps ih =>
      intro st h
      rw [List.foldl_cons]
      exact ih _ (applyAgentState_toolNotifications_length st p.1 p.2 h)

/-- Witness for C7: four consecutive `thinking` events with a tool name,
starting from an empty queue, leave at most three notifications. -/
theorem tool_notifications_bounded_fifo_witness :
    (List.foldl (fun s p => applyAgentState s p.1 p.2)
      (AgentUi.mk "idle" none none [])
      [(⟨some "thinking", some "Searching", some "search_restaurants"⟩, "n1"),
       (⟨some "thinking", some "Searching", some "search_restaurants"⟩, "n2"),
       (⟨some "thinking", some "Searching", some "search_restaurants"⟩, "n3"),
       (⟨some "thinking", some "Searching", some "search_restaurants"⟩, "n4")]
      ).toolNotifications.length ≤ 3 :=
  tool_notifications_bounded_fifo.2.2.2 _ (AgentUi.mk "idle" none none [])
    (by decide)

/-- Wallet and payment-processing context of the meeting page at the
moment a checkout request arrives. -/
structure WalletCtx where
  walletConnected : Bool
  publicKey : Option String
  hasSendTransaction : Bool
  isProcessingPayment : Bool
deriving DecidableEq

/-- How a checkout request reaches `handleCheckout`: the itinerary-panel
button or an inbound `PAYMENT_EXECUTE` data-channel event. -/
inductive CheckoutTrigger
  | localButton
  | paymentExecute
deriving DecidableEq

/-- The itinerary-panel checkout button is rendered with
`disabled={!connected || isProcessingPayment}`. -/
def checkoutButtonEnabled (c : WalletCtx) : Bool :=
  c.walletConnected && !c.isProcessingPayment

/-- Entry guard of `handleCheckout`: it returns early (showing the wallet
overlay) only when the wallet is not connected, there is no public key, or
`sendTransaction` is unavailable.  It performs no in-flight check. -/
def checkoutGuardPasses (c : WalletCtx) : Bool :=
  c.walletConnected && c.publicKey.isSome && c.hasSendTransaction

/-- Whether a checkout request actually starts a transfer.  A local button
press only reaches `handleCheckout` when the button is enabled; the
`PAYMENT_EXECUTE` branch calls `handleCheckoutRef.current()` directly. -/
def checkoutStarts (c : WalletCtx) : CheckoutTrigger → Bool
  | CheckoutTrigger.localButton => checkoutButtonEnabled c && checkoutGuardPasses c
  | CheckoutTrigger.paymentExecute => checkoutGuardPasses c

/-- C1: evaluation of the checkout entry logic in a context where a payment
is already in flight (`isProcessingPayment = true`) and the wallet is
connected: a local button press is ignored, but an inbound
`PAYMENT_EXECUTE` event starts a second concurrent transfer, contradicting
the claim that every such request is ignored. -/
theorem payment_execute_bypasses_inflight_guard :
    checkoutStarts ⟨true, some "FvK7vendorPubkey", true, true⟩
      CheckoutTrigger.paymentExecute = true ∧
    checkoutStarts ⟨true, some "FvK7vendorPubkey", true, true⟩
      CheckoutTrigger.localButton = false := by
  decide

/-- Payment status shown by the payment toast (`type`, message, optional
transaction signature). -/
structure PaymentStatus where
  statusType : Option String
  message : String
  signature : Option String
deriving DecidableEq

/-- The cleared status `{ type: null, message: "" }`. -/
def idlePaymentStatus : PaymentStatus := ⟨none, "", none⟩

/-- A JavaScript error value as inspected by the catch branch. -/
structure JsError where
  name : String
  message : String
deriving DecidableEq

/-- The user-rejection test of the catch branch of `handleCheckout`. -/
def isUserRejection (e : JsError) : Bool :=
  containsChars e.message.data "User rejected".data ||
  containsChars e.message.data "rejected".data ||
  e.name == "WalletSendTransactionError"

/-- Terminal outcome of a checkout attempt: the network confirmed the
transaction, or some step threw an error. -/
inductive PaymentOutcome
  | confirmed (signature : String)
  | failed (err : JsError)
deriving DecidableEq

/-- Embedding of the terminal-outcome handling of `handleCheckout`: the
status written at the outcome, paired with the status a scheduled display
timeout will write later (`none` when no timeout is scheduled).  Success
schedules a reset to the idle status after 10 seconds; both error paths
schedule nothing. -/
def finishCheckout : PaymentOutcome → PaymentStatus × Option PaymentStatus
  | PaymentOutcome.confirmed sig =>
    (⟨some "success", "Payment of 0.5 SOL successful!", some sig⟩,
      some idlePaymentStatus)
  | PaymentOutcome.failed e =>
    if isUserRejection e then
      (⟨some "error", "Payment cancelled. You can try again when ready.",
        none⟩, none)
    else
      (⟨some "error",
        (if e.message = "" then "Payment failed. Please try again."
          else e.message), none⟩, none)

/-- C9 counterexample: the error outcome is terminal, yet no display
timeout is scheduled, so the status does not return to idle without user
action — refuting the claim for the error side. -/
theorem payment_error_not_auto_cleared :
    (finishCheckout (PaymentOutcome.failed
      ⟨"TypeError", "Failed to get vendor wallet"⟩)).1.statusType =
        some "error" ∧
    (finishCheckout (PaymentOutcome.failed
      ⟨"TypeError", "Failed to get vendor wallet"⟩)).2 = none := by
  decide

/-- C9 (amended): from the success outcome the payment status display is
reset to idle by a scheduled fixed display timeout; from either error
outcome an error status is shown and no timeout is scheduled, so it stays
until dismissed by the user. -/
theorem payment_outcome_display_timeout :
    (∀ sig : String,
      (finishCheckout (PaymentOutcome.confirmed sig)).1.statusType =
        some "success" ∧
      (finishCheckout (PaymentOutcome.confirmed sig)).2 =
        some idlePaymentStatus) ∧
    (∀ e : JsError,
      (finishCheckout (PaymentOutcome.failed e)).1.statusType =
        some "error" ∧
      (finishCheckout (PaymentOutcome.failed e)).2 = none) := by
  refine ⟨fun sig => ⟨rfl, rfl⟩, fun e => ?_⟩
  cases h : isUserRejection e
  · simp [finishCheckout, h]
  · simp [finishCheckout, h]

/-- A named stop of a route as carried by `ROUTE_UPDATE` payloads. -/
structure Waypoint where
  location : Option String
  coordinates : Option (List Int)
deriving DecidableEq

/-- A map marker held in the `mapMarkers` state; the opaque `data` payload
is reduced to the `label` written for waypoint markers. -/
structure Marker where
  id : String
  markerType : String
  coordinates : Option (List Int)
  label : Option String
deriving DecidableEq

/-- The route object stored in `mapRoute`. -/
structure RoutePayload where
  path : Option (List (List Int))
  waypoints : Option (List Waypoint)
  bounds : Option (List Int)
  route_type : Option String
deriving DecidableEq

/-- Inbound `ROUTE_UPDATE` event payload: either a nested `route` object or
top-level fields. -/
structure RouteUpdateData where
  route : Option RoutePayload
  path : Option (List (List Int))
  waypoints : Option (List Waypoint)
  bounds : Option (List Int)
  route_type : Option String
deriving DecidableEq

/-- Embedding of `data.route || { path: data.path || [], waypoints:
data.waypoints || [], bounds: data.bounds || data.route?.bounds,
route_type: data.route_type || "driving" }` (arrays are always truthy in
JavaScript, so `x || []` only replaces a missing field). -/
def routeDataOf (d : RouteUpdateData) : RoutePayload :=
  match d.route with
  | some r => r
  | none =>
    { path := some (d.path.getD [])
      waypoints := some (d.waypoints.getD [])
      bounds := d.bounds
      route_type := some (jsOrStr d.route_type "driving") }

/-- JavaScript `Array.join(",")` on a coordinate array. -/
def joinComma : List Int → String
  | [] => ""
  | [x] => toString x
  | x :: y :: rest => toString x ++ "," ++ joinComma (y :: rest)

/-- Marker id `waypoint-IDX-(wp.location || wp.coordinates?.join(",") ||
"unknown")`. -/
def wpMarkerId (idx : Nat) (wp : Waypoint) : String :=
  "waypoint-" ++ toString idx ++ "-" ++
    (match jsStrOrNone wp.location with
     | some s => s
     | none =>
       match wp.coordinates with
       | some cs => if joinComma cs = "" then "unknown" else joinComma cs
       | none => "unknown")

/-- Waypoint marker built by the `ROUTE_UPDATE` branch; index 0 is
labelled `Start`, the other `End`. -/
def mkWaypointMarker (idx : Nat) (wp : Waypoint) : Marker :=
  { id := wpMarkerId idx wp
    markerType := "waypoint"
    coordinates := wp.coordinates
    label := some (if idx = 0 then "Start" else "End") }

/-- Embedding of `[waypoints[0], waypoints[waypoints.length - 1]].filter(
(wp, idx, arr) => idx === 0 || wp.location !== arr[0].location)` guarded
by `waypoints.length > 0`. -/
def startEndWaypoints : List Waypoint → List Waypoint
  | [] => []
  | w :: rest =>
    let lastWp := (w :: rest).getLast (List.cons_ne_nil w rest)
    if lastWp.location = w.location then [w] else [w, lastWp]

/-- The waypoint list the handler reads: `data.waypoints ||
routeData.waypoints || []`. -/
def effectiveWaypoints (d : RouteUpdateData) : List Waypoint :=
  match d.waypoints with
  | some ws => ws
  | none => (routeDataOf d).waypoints.getD []

/-- The new waypoint markers derived from the first and last waypoint. -/
def waypointMarkersOf (d : RouteUpdateData) : List Marker :=
  (startEndWaypoints (effectiveWaypoints d)).enum.map
    (fun p => mkWaypointMarker p.1 p.2)

/-- Map-related view state touched by the `ROUTE_UPDATE` branch. -/
structure MapState where
  mapRoute : Option RoutePayload
  mapMarkers : List Marker
deriving DecidableEq

/-- Embedding of the `ROUTE_UPDATE` branch of `handleMapUpdate`: the route
is always replaced; the waypoint markers are rebuilt only when
`data.waypoints || routeData.waypoints` is truthy (an empty array is
truthy, a missing field is not). -/
def handleRouteUpdate (d : RouteUpdateData) (st : MapState) : MapState :=
  let routeData := routeDataOf d
  let st1 : MapState := { st with mapRoute := some routeData }
  if d.waypoints.isSome || routeData.waypoints.isSome then
    { st1 with mapMarkers :=
        (st1.mapMarkers.filter (fun m => m.markerType != "waypoint")
          ++ waypointMarkersOf d) }
  else st1

theorem startEndWaypoints_length (ws : List Waypoint) :
    (startEndWaypoints ws).length ≤ 2 := by
  cases ws with
  | nil => simp [startEndWaypoints]
  | cons w rest =>
    simp only [startEndWaypoints]
    split <;> simp

theorem waypointMarkersOf_types (d : RouteUpdateData) :
    ∀ m ∈ waypointMarkersOf d, m.markerType = "waypoint" := by
  intro m hm
  simp only [waypointMarkersOf, List.mem_map] at hm
  obtain ⟨p, -, rfl⟩ := hm
  rfl

theorem filter_waypointMarkersOf_ne (d : RouteUpdateData) :
    (waypointMarkersOf d).filter (fun m => m.markerType != "waypoint") =
      [] := by
  rw [List.filter_eq_nil_iff]
  intro m hm
  simp [waypointMarkersOf_types d m hm]

theorem filter_waypointMarkersOf_eq (d : RouteUpdateData) :
    (waypointMarkersOf d).filter (fun m => m.markerType == "waypoint") =
      waypointMarkersOf d := by
  rw [List.filter_eq_self]
  intro m hm
  simp [waypointMarkersOf_types d m hm]

/-- C6 counterexample: a `ROUTE_UPDATE` whose `route` object has no
`waypoints` field (and no top-level `waypoints`) leaves the marker list
completely untouched, so a waypoint marker present before the event
survives it — refuting the claim that every `ROUTE_UPDATE` removes all
prior waypoint markers. -/
theorem route_update_without_waypoints_keeps_stale_markers :
    (handleRouteUpdate
      ⟨some ⟨some [[0, 0], [1, 1]], none, none, none⟩, none, none, none,
        none⟩
      ⟨none, [⟨"waypoint-0-Old Stop", "waypoint", some [2, 2],
        some "Start"⟩]⟩).mapMarkers =
      [⟨"waypoint-0-Old Stop", "waypoint", some [2, 2], some "Start"⟩] ∧
    (Marker.mk "waypoint-0-Old Stop" "waypoint" (some [2, 2])
      (some "Start")).markerType = "waypoint" := by
  exact ⟨rfl, rfl⟩

/-- C6 (amended): after a `ROUTE_UPDATE` event the non-waypoint markers
are always exactly those present before.  When the event carries a
`waypoints` field (top level or inside its `route` object — always the
case when there is no `route` object), the waypoint markers afterwards
are exactly the at-most-2 markers derived from the first and last entry
of the supplied waypoint list, all older waypoint markers having been
removed.  When the event has a `route` object without `waypoints` and no
top-level `waypoints`, the marker list is left completely unchanged. -/
theorem route_update_waypoint_markers :
    ∀ (d : RouteUpdateData) (st : MapState),
      ((handleRouteUpdate d st).mapMarkers.filter
          (fun m => m.markerType != "waypoint") =
        st.mapMarkers.filter (fun m => m.markerType != "waypoint")) ∧
      ((d.waypoints.isSome || (routeDataOf d).waypoints.isSome) = true →
        ((handleRouteUpdate d st).mapMarkers.filter
            (fun m => m.markerType == "waypoint") = waypointMarkersOf d) ∧
        ((handleRouteUpdate d st).mapMarkers.filter
            (fun m => m.markerType == "waypoint")).length ≤ 2) ∧
      ((d.waypoints.isSome || (routeDataOf d).waypoints.isSome) = false →
        (handleRouteUpdate d st).mapMarkers = st.mapMarkers) := by
  intro d st
  unfold handleRouteUpdate
  cases hc : (d.waypoints.isSome || (routeDataOf d).waypoints.isSome)
  · simp [hc]
  · simp only [hc, if_pos]
    have hfilter : ∀ m ∈ st.mapMarkers.filter
        (fun m => m.markerType != "waypoint"),
        (m.markerType != "waypoint") = true :=
      fun m hm => (List.mem_filter.mp hm).2
    refine ⟨?_, fun _ => ⟨?_, ?_⟩, fun h => by simp at h⟩
    · rw [List.filter_append, filter_waypointMarkersOf_ne,
        List.append_nil, List.filter_eq_self.mpr hfilter]
    · rw [List.filter_append, filter_waypointMarkersOf_eq]
      have : (st.mapMarkers.filter (fun m => m.markerType != "waypoint")
          ).filter (fun m => m.markerType == "waypoint") = [] := by
        rw [List.filter_eq_nil_iff]
        intro m hm
        have := hfilter m hm
        simp only [bne_iff_ne, ne_eq] at this
        simp [this]
      rw [this, List.nil_append]
    · rw [List.filter_append, filter_waypointMarkersOf_eq]
      have : (st.mapMarkers.filter (fun m => m.markerType != "waypoint")
          ).filter (fun m => m.markerType == "waypoint") = [] := by
        rw [List.filter_eq_nil_iff]
        intro m hm
        have := hfilter m hm
        simp only [bne_iff_ne, ne_eq] at this
        simp [this]
      rw [this, List.nil_append]
      calc (waypointMarkersOf d).length
          = (startEndWaypoints (effectiveWaypoints d)).length := by
            simp [waypointMarkersOf]
        _ ≤ 2 := startEndWaypoints_length _

/-- Witness for C6: a `ROUTE_UPDATE` carrying three waypoints, applied on
a state with a stale waypoint marker, leaves at most two waypoint
markers. -/
theorem route_update_waypoint_markers_witness :
    ((handleRouteUpdate
      ⟨none, some [[0, 0], [5, 5]],
        some [⟨some "A", some [0, 0]⟩, ⟨some "B", some [3, 3]⟩,
          ⟨some "C", some [5, 5]⟩], none, none⟩
      ⟨none, [⟨"waypoint-0-Old", "waypoint", some [9, 9], some "Start"⟩,
        ⟨"Cafe", "restaurant", some [1, 1], none⟩]⟩).mapMarkers.filter
        (fun m => m.markerType == "waypoint")).length ≤ 2 :=
  ((route_update_waypoint_markers _ _).2.1 (by decide)).2

/-- Whether an itinerary item is coordinate bearing: the filter
`item.coordinates && item.coordinates.length >= 2`. -/
def hasCoords (i : ItineraryItem) : Bool :=
  match i.coordinates with
  | some cs => decide (2 ≤ cs.length)
  | none => false

/-- Target of a `flyTo` command issued to the map. -/
structure FlyToTarget where
  coordinates : List Int
  name : Option String
  zoom : Option Nat
deriving DecidableEq

/-- The concrete route object written by the itinerary route derivation. -/
structure RouteVal where
  path : List (List Int)
  waypoints : List Waypoint
  bounds : Option (List Int)
  route_type : String
deriving DecidableEq

/-- View state touched by the route-derivation effect that runs whenever
the itinerary changes. -/
structure ItinViewState where
  mapRoute : Option RouteVal
  flyToTarget : Option FlyToTarget
  routeNotification : Option String
deriving DecidableEq

/-- Outcome of the `fetch` to the external routing service: the response
resolved with `ok` (carrying the optional `path` and `bounds` of its JSON
body), resolved without `ok`, or the fetch threw. -/
inductive RoutingOutcome
  | respOk (path : Option (List (List Int))) (bounds : Option (List Int))
  | respBad
  | fetchFailed
deriving DecidableEq

/-- Waypoint built from an itinerary item:
`{ location: item.name, coordinates: item.coordinates }`. -/
def itemWaypoint (i : ItineraryItem) : Waypoint :=
  { location := some i.name, coordinates := i.coordinates }

/-- Fallback path point of an item: the destructuring
`const [lat, lng] = item.coordinates` takes the first two entries. -/
def itemPoint (i : ItineraryItem) : List Int :=
  (i.coordinates.getD []).take 2

/-- JavaScript `Array.join(" → ")` on the stop names. -/
def joinArrowNames : List String → String
  | [] => ""
  | [x] => x
  | x :: y :: rest => x ++ " → " ++ joinArrowNames (y :: rest)

/-- The success-path route notification text: first up to three stop
names, with a `+N more` suffix when truncated. -/
def routeNotifText (items : List ItineraryItem) : String :=
  let stopNames := joinArrowNames ((items.take 3).map (·.name))
  let suffix := if 3 < items.length
    then " + " ++ toString (items.length - 3) ++ " more" else ""
  "Route updated: " ++ stopNames ++ suffix

/-- Embedding of the route-derivation `useEffect` of the meeting page,
with the asynchronous routing call abstracted into its observed
`RoutingOutcome`: with at least two coordinate-bearing items the route is
replaced on an `ok` response carrying a non-empty path, replaced by the
straight-line fallback when the fetch throws, and left alone otherwise;
with exactly one such item only a fly-to command is issued; with an empty
itinerary the route is cleared; in the remaining case nothing happens. -/
def deriveRoute (itin : List ItineraryItem) (outcome : RoutingOutcome)
    (st : ItinViewState) : ItinViewState :=
  let itemsWithCoords := itin.filter hasCoords
  if 2 ≤ itemsWithCoords.length then
    let waypoints := itemsWithCoords.map itemWaypoint
    match outcome with
    | RoutingOutcome.respOk pathOpt bounds =>
      match pathOpt with
      | some p =>
        if 0 < p.length then
          { st with
            mapRoute := some ⟨p, waypoints, bounds, "driving"⟩
            routeNotification := some (routeNotifText itemsWithCoords) }
        else st
      | none => st
    | RoutingOutcome.respBad => st
    | RoutingOutcome.fetchFailed =>
      let path := itemsWithCoords.map itemPoint
      if 2 ≤ path.length then
        { st with
          mapRoute := some ⟨path, waypoints, none, "driving"⟩
          routeNotification := some ("Route updated with "
            ++ toString itemsWithCoords.length ++ " stops") }
      else st
  else
    match itemsWithCoords with
    | [i] =>
      { st with flyToTarget := (some
          ⟨i.coordinates.getD [], some i.name, some 15⟩) }
    | _ => if itin.length = 0 then { st with mapRoute := none } else st

theorem deriveRoute_fetchFailed_eq (itin : List ItineraryItem)
    (st : ItinViewState) (h : 2 ≤ (itin.filter hasCoords).length) :
    deriveRoute itin RoutingOutcome.fetchFailed st =
      { st with
        mapRoute := some ⟨(itin.filter hasCoords).map itemPoint,
          (itin.filter hasCoords).map itemWaypoint, none, "driving"⟩
        routeNotification := some ("Route updated with "
          ++ toString (itin.filter hasCoords).length ++ " stops") } := by
  simp only [deriveRoute]
  rw [if_pos h]
  have hlen : 2 ≤ ((itin.filter hasCoords).map itemPoint).length := by
    rw [List.length_map]; exact h
  rw [if_pos hlen]

theorem deriveRoute_respOk_eq (itin : List ItineraryItem)
    (st : ItinViewState) (p : List (List Int)) (b : Option (List Int))
    (h : 2 ≤ (itin.filter hasCoords).length) (hp : p ≠ []) :
    deriveRoute itin (RoutingOutcome.respOk (some p) b) st =
      { st with
        mapRoute := some ⟨p, (itin.filter hasCoords).map itemWaypoint, b,
          "driving"⟩
        routeNotification :=
          some (routeNotifText (itin.filter hasCoords)) } := by
  simp only [deriveRoute]
  rw [if_pos h]
  rw [if_pos (List.length_pos.mpr hp)]

/-- C2 counterexample: an itinerary with one item and zero
coordinate-bearing items leaves a previously set route in place — the
route-clearing branch only fires when the itinerary itself is empty, so
the claim that zero coordinate-bearing items clear the active route is
false. -/
theorem route_not_cleared_without_coordinates :
    (([ItineraryItem.mk "x1" "Mystery Place" "activity" 10 "$10" none none
      ].filter hasCoords).length = 0) ∧
    (deriveRoute
      [ItineraryItem.mk "x1" "Mystery Place" "activity" 10 "$10" none none]
      RoutingOutcome.respBad
      ⟨some ⟨[[0, 0], [1, 1]], [], none, "driving"⟩, none, none⟩).mapRoute =
      some ⟨[[0, 0], [1, 1]], [], none, "driving"⟩ := by
  decide

/-- C2 (amended): the route derivation satisfies this case split.  Empty
itinerary: the route is cleared.  Exactly one coordinate-bearing item: a
fly-to command for that point is issued and nothing else changes (the
route is not redrawn, but also not cleared).  At least two
coordinate-bearing items: when the routing fetch throws, the fallback
route has path length at least 2 and one waypoint per coordinate-bearing
item in itinerary order; when the fetch resolves `ok` with a non-empty
path, that path becomes the route with the same waypoint list; when the
fetch resolves without `ok`, with no path, or with an empty path, the
state is unchanged.  Non-empty itinerary with zero coordinate-bearing
items: the state is unchanged (the route is not cleared). -/
theorem route_derivation_cases :
    ∀ (itin : List ItineraryItem) (outcome : RoutingOutcome)
      (st : ItinViewState),
      (itin = [] → (deriveRoute itin outcome st).mapRoute = none) ∧
      (∀ i, itin.filter hasCoords = [i] →
        deriveRoute itin outcome st =
          { st with flyToTarget := (some
              ⟨i.coordinates.getD [], some i.name, some 15⟩) }) ∧
      (2 ≤ (itin.filter hasCoords).length →
        ∃ r, (deriveRoute itin RoutingOutcome.fetchFailed st).mapRoute =
          some r ∧ 2 ≤ r.path.length ∧
          r.waypoints = (itin.filter hasCoords).map itemWaypoint) ∧
      (∀ p b, 2 ≤ (itin.filter hasCoords).length → p ≠ [] →
        (deriveRoute itin (RoutingOutcome.respOk (some p) b) st).mapRoute =
          some ⟨p, (itin.filter hasCoords).map itemWaypoint, b,
            "driving"⟩) ∧
      (∀ b, 2 ≤ (itin.filter hasCoords).length →
        deriveRoute itin RoutingOutcome.respBad st = st ∧
        deriveRoute itin (RoutingOutcome.respOk none b) st = st ∧
        deriveRoute itin (RoutingOutcome.respOk (some []) b) st = st) ∧
      (itin.filter hasCoords = [] → itin ≠ [] →
        deriveRoute itin outcome st = st) := by
  intro itin outcome st
  refine ⟨?_, ?_, ?_, ?_, ?_, ?_⟩
  · rintro rfl
    cases outcome <;> rfl
  · intro i h
    simp only [deriveRoute]
    rw [h]
    cases outcome <;> rfl
  · intro h
    rw [deriveRoute_fetchFailed_eq itin st h]
    refine ⟨_, rfl, ?_, rfl⟩
    show 2 ≤ ((itin.filter hasCoords).map itemPoint).length
    rw [List.length_map]
    exact h
  · intro p b h hp
    rw [deriveRoute_respOk_eq itin st p b h hp]
  · intro b h
    refine ⟨?_, ?_, ?_⟩
    · show deriveRoute itin RoutingOutcome.respBad st = st
      simp only [deriveRoute]
      rw [if_pos h]
    · show deriveRoute itin (RoutingOutcome.respOk none b) st = st
      simp only [deriveRoute]
      rw [if_pos h]
    · show deriveRoute itin (RoutingOutcome.respOk (some []) b) st = st
      simp only [deriveRoute]
      rw [if_pos h]
      rfl
  · intro h hne
    have hlen : ¬ itin.length = 0 := fun hl => hne (List.length_eq_zero.mp hl)
    simp only [deriveRoute]
    rw [h]
    show (if itin.length = 0 then { st with mapRoute := none } else st) = st
    rw [if_neg hlen]

/-- Witness for C2: the empty itinerary clears the route, and two concrete
coordinate-bearing items with a throwing fetch produce a fallback route. -/
theorem route_derivation_cases_witness :
    (deriveRoute [] RoutingOutcome.respBad
      ⟨some ⟨[[0, 0], [1, 1]], [], none, "driving"⟩, none, none⟩).mapRoute =
      none :=
  (route_derivation_cases [] RoutingOutcome.respBad
    ⟨some ⟨[[0, 0], [1, 1]], [], none, "driving"⟩, none, none⟩).1 rfl

/-- C5 counterexample: with two coordinate-bearing items, a routing
service that resolves with a non-`ok` HTTP response (a service failure)
leaves the route state unchanged — here absent — so the claim that every
routing-service failure still yields a non-empty fallback path is false:
only a thrown fetch reaches the fallback. -/
theorem routing_http_failure_leaves_route_absent :
    (([ItineraryItem.mk "r1" "Sushi Fumi" "restaurant" 40 "$40" none
        (some [34, -118]),
       ItineraryItem.mk "h1" "Grand Hotel" "hotel" 200 "$200" none
        (some [34, -118])].filter hasCoords).length = 2) ∧
    (deriveRoute
      [ItineraryItem.mk "r1" "Sushi Fumi" "restaurant" 40 "$40" none
        (some [34, -118]),
       ItineraryItem.mk "h1" "Grand Hotel" "hotel" 200 "$200" none
        (some [34, -118])]
      RoutingOutcome.respBad ⟨none, none, none⟩).mapRoute = none := by
  decide

/-- C5 (amended): when the routing fetch throws and at least two
coordinate-bearing items exist, the straight-line fallback route is set
and its path is non-empty (one point per coordinate-bearing item, so at
least two). -/
theorem routing_exception_fallback_route :
    ∀ (itin : List ItineraryItem) (st : ItinViewState),
      2 ≤ (itin.filter hasCoords).length →
      ∃ r, (deriveRoute itin RoutingOutcome.fetchFailed st).mapRoute =
        some r ∧ r.path ≠ [] ∧ 2 ≤ r.path.length := by
  intro itin st h
  rw [deriveRoute_fetchFailed_eq itin st h]
  refine ⟨_, rfl, ?_, ?_⟩
  · show (itin.filter hasCoords).map itemPoint ≠ []
    apply List.ne_nil_of_length_pos
    rw [List.length_map]
    omega
  · show 2 ≤ ((itin.filter hasCoords).map itemPoint).length
    rw [List.length_map]
    exact h

/-- Witness for C5: two concrete coordinate-bearing items with a throwing
fetch yield a concrete non-empty fallback route. -/
theorem routing_exception_fallback_route_witness :
    ∃ r, (deriveRoute
      [ItineraryItem.mk "r1" "Sushi Fumi" "restaurant" 40 "$40" none
        (some [34, -118]),
       ItineraryItem.mk "h1" "Grand Hotel" "hotel" 200 "$200" none
        (some [34, -118])]
      RoutingOutcome.fetchFailed ⟨none, none, none⟩).mapRoute = some r ∧
      r.path ≠ [] ∧ 2 ≤ r.path.length :=
  routing_exception_fallback_route _ _ (by decide)

/-- Per-item enrichment payload produced by the research flow
(`getResearchForItem`). -/
structure ResearchInfo where
  bestTimeToVisit : String
  estimatedDuration : String
  gettingThere : String
  tips : List String
  nearbyAttractions : List String
  reservationRequired : Bool
  accessibility : String
deriving DecidableEq

/-- Per-item research result keyed by the item. -/
structure ResearchResult where
  itemId : String
  itemName : String
  itemType : String
  research : ResearchInfo
deriving DecidableEq

/-- One newline-delimited JSON record of the research stream, tagged like
the `type` field written by the route handler. -/
inductive ResearchRecord
  | progress (current total : Nat) (itemName : String)
  | item_complete (current total : Nat) (itemName : String)
      (research : ResearchResult)
  | item_error (current total : Nat) (itemName : String)
  | complete (results : List ResearchResult) (totalItems : Nat)
deriving DecidableEq

/-- The loop body of the research stream, indexed by the current zero-based
position `i`.  The awaited `getResearchForItem` call is abstracted into
`enrich`, whose `Except.error` case models a rejected promise caught by
the per-item `try`/`catch`. -/
def researchStreamAux (enrich : ItineraryItem → Except String ResearchResult)
    (total : Nat) : Nat → List ItineraryItem → List ResearchRecord
  | _, [] => []
  | i, item :: rest =>
    ResearchRecord.progress (i + 1) total item.name ::
      (match enrich item with
       | Except.ok r => ResearchRecord.item_complete (i + 1) total item.name r
       | Except.error _ => ResearchRecord.item_error (i + 1) total item.name) ::
      researchStreamAux enrich total (i + 1) rest

/-- The `results` array accumulated by the loop: one entry per item whose
enrichment succeeded, in order. -/
def researchResults (enrich : ItineraryItem → Except String ResearchResult)
    (items : List ItineraryItem) : List ResearchResult :=
  items.filterMap (fun it => (enrich it).toOption)

/-- Embedding of the streaming response of `POST /api/research-itinerary`:
per-item progress and completion (or error) records in order, then a
single `complete` record. -/
def researchStream (enrich : ItineraryItem → Except String ResearchResult)
    (items : List ItineraryItem) : List ResearchRecord :=
  researchStreamAux enrich items.length 0 items ++
    [ResearchRecord.complete (researchResults enrich items) items.length]

/-- The `current` field of a completion record (`item_complete` or
`item_error`); `none` for the other record kinds. -/
def completionCurrent : ResearchRecord → Option Nat
  | ResearchRecord.item_complete c _ _ _ => some c
  | ResearchRecord.item_error c _ _ => some c
  | _ => none

/-- Position of a record in the per-item order: its `current` field, with
the final `complete` record sorting after every item. -/
def recPhase : ResearchRecord → Nat
  | ResearchRecord.progress c _ _ => c
  | ResearchRecord.item_complete c _ _ _ => c
  | ResearchRecord.item_error c _ _ => c
  | ResearchRecord.complete _ t => t + 1

/-- Whether a record is the final `complete` record. -/
def isCompleteRec : ResearchRecord → Bool
  | ResearchRecord.complete _ _ => true
  | _ => false

theorem researchStreamAux_filterMap
    (enrich : ItineraryItem → Except String ResearchResult) (total : Nat)
    (items : List ItineraryItem) :
    ∀ i, (researchStreamAux enrich total i items).filterMap
      completionCurrent = List.range' (i + 1) items.length := by
  induction items with
  | nil => intro i; rfl
  | cons item rest ih =>
    intro i
    cases he : enrich item with
    | ok r =>
      simp only [researchStreamAux, he, List.filterMap_cons,
        completionCurrent, List.length_cons]
      rw [ih (i + 1), List.range'_succ]
    | error e =>
      simp only [researchStreamAux, he, List.filterMap_cons,
        completionCurrent, List.length_cons]
      rw [ih (i + 1), List.range'_succ]

theorem researchStreamAux_no_complete
    (enrich : ItineraryItem → Except String ResearchResult) (total : Nat)
    (items : List ItineraryItem) :
    ∀ i, (researchStreamAux enrich total i items).filter isCompleteRec
      = [] := by
  induction items with
  | nil => intro i; rfl
  | cons item rest ih =>
    intro i
    cases he : enrich item with
    | ok r =>
      simp only [researchStreamAux, he, List.filter_cons, isCompleteRec]
      simpa using ih (i + 1)
    | error e =>
      simp only [researchStreamAux, he, List.filter_cons, isCompleteRec]
      simpa using ih (i + 1)

theorem researchStreamAux_phase_bounds
    (enrich : ItineraryItem → Except String ResearchResult) (total : Nat)
    (items : List ItineraryItem) :
    ∀ i x, x ∈ (researchStreamAux enrich total i items).map recPhase →
      i + 1 ≤ x ∧ x ≤ i + items.length := by
  induction items with
  | nil => intro i x hx; exact absurd hx (by simp [researchStreamAux])
  | cons item rest ih =>
    intro i x hx
    cases he : enrich item with
    | ok r =>
      simp only [researchStreamAux, he, List.map_cons, List.mem_cons,
        recPhase] at hx
      rcases hx with rfl | rfl | hx
      · simp
      · simp
      · have := ih (i + 1) x hx
        constructor <;> [omega; (simp only [List.length_cons]; omega)]
    | error e =>
      simp only [researchStreamAux, he, List.map_cons, List.mem_cons,
        recPhase] at hx
      rcases hx with rfl | rfl | hx
      · simp
      · simp
      · have := ih (i + 1) x hx
        constructor <;> [omega; (simp only [List.length_cons]; omega)]

theorem researchStreamAux_sorted
    (enrich : ItineraryItem → Except String ResearchResult) (total : Nat)
    (items : List ItineraryItem) :
    ∀ i, List.Sorted (· ≤ ·)
      ((researchStreamAux enrich total i items).map recPhase) := by
  induction items with
  | nil => intro i; simp [researchStreamAux]
  | cons item rest ih =>
    intro i
    have hbound := researchStreamAux_phase_bounds enrich total rest (i + 1)
    cases he : enrich item with
    | ok r =>
      simp only [researchStreamAux, he, List.map_cons]
      rw [List.sorted_cons, List.sorted_cons]
      refine ⟨?_, ?_, ih (i + 1)⟩
      · intro b hb
        rcases List.mem_cons.mp hb with rfl | hb
        · exact Nat.le_refl _
        · exact Nat.le_of_lt (hbound b hb).1
      · intro b hb
        exact Nat.le_of_lt (hbound b hb).1
    | error e =>
      simp only [researchStreamAux, he, List.map_cons]
      rw [List.sorted_cons, List.sorted_cons]
      refine ⟨?_, ?_, ih (i + 1)⟩
      · intro b hb
        rcases List.mem_cons.mp hb with rfl | hb
        · exact Nat.le_refl _
        · exact Nat.le_of_lt (hbound b hb).1
      · intro b hb
        exact Nat.le_of_lt (hbound b hb).1

theorem researchStreamAux_mem_completion
    (enrich : ItineraryItem → Except String ResearchResult) (total : Nat) :
    ∀ (items : List ItineraryItem) (i j : Nat) (hj : j < items.length),
      (match enrich (items.get ⟨j, hj⟩) with
       | Except.ok r => ResearchRecord.item_complete (i + j + 1) total
          (items.get ⟨j, hj⟩).name r
       | Except.error _ => ResearchRecord.item_error (i + j + 1) total
          (items.get ⟨j, hj⟩).name)
      ∈ researchStreamAux enrich total i items := by
  intro items
  induction items with
  | nil => intro i j hj; exact absurd hj (by simp)
  | cons item rest ih =>
    intro i j hj
    cases j with
    | zero =>
      cases he : enrich item with
      | ok r =>
        simp only [List.get, researchStreamAux, he]
        exact List.mem_cons_of_mem _ (List.mem_cons_self _ _)
      | error e =>
        simp only [List.get, researchStreamAux, he]
        exact List.mem_cons_of_mem _ (List.mem_cons_self _ _)
    | succ j' =>
      have hj' : j' < rest.length := by simpa using hj
      have hmem := ih (i + 1) j' hj'
      rw [Nat.add_right_comm i 1 j'] at hmem
      simp only [researchStreamAux]
      exact List.mem_cons_of_mem _ (List.mem_cons_of_mem _ hmem)

/-- C8: for every enrichment behaviour and non-empty item list, the
research stream (a) has completion-record `current` fields exactly
`1, 2, ..., total` (each item contributes exactly one completion record,
whether it succeeded or errored, and `current` reaches `total` exactly
once), (b) ends with the single `complete` record — emitted even when all
items error, (c) is ordered: record positions never decrease, so no
record of item N+1 precedes item N's completion record, and (d) every
item whose enrichment fails contributes an `item_error` record without
aborting the rest. -/
theorem research_stream_progress :
    ∀ (enrich : ItineraryItem → Except String ResearchResult)
      (items : List ItineraryItem), items ≠ [] →
      ((researchStream enrich items).filterMap completionCurrent =
        List.range' 1 items.length) ∧
      (((researchStream enrich items).filterMap completionCurrent).count
        items.length = 1) ∧
      ((researchStream enrich items).getLast? =
        some (ResearchRecord.complete (researchResults enrich items)
          items.length)) ∧
      (((researchStream enrich items).filter isCompleteRec).length = 1) ∧
      List.Sorted (· ≤ ·) ((researchStream enrich items).map recPhase) ∧
      (∀ (j : Nat) (hj : j < items.length) (e : String),
        enrich (items.get ⟨j, hj⟩) = Except.error e →
          ResearchRecord.item_error (j + 1) items.length
            (items.get ⟨j, hj⟩).name ∈ researchStream enrich items) := by
  intro enrich items hne
  have hfm : (researchStream enrich items).filterMap completionCurrent =
      List.range' 1 items.length := by
    unfold researchStream
    rw [List.filterMap_append, researchStreamAux_filterMap]
    simp [completionCurrent]
  refine ⟨hfm, ?_, ?_, ?_, ?_, ?_⟩
  · rw [hfm]
    refine List.count_eq_one_of_mem (List.nodup_range' 1 items.length) ?_
    have : 0 < items.length := List.length_pos.mpr hne
    simp only [List.mem_range'_1]
    omega
  · unfold researchStream
    exact List.getLast?_concat _
  · unfold researchStream
    rw [List.filter_append, researchStreamAux_no_complete]
    rfl
  · unfold researchStream
    rw [List.map_append]
    refine List.pairwise_append.mpr
      ⟨researchStreamAux_sorted enrich items.length items 0, ?_, ?_⟩
    · simp [recPhase]
    · intro x hx y hy
      have hb := researchStreamAux_phase_bounds enrich items.length items 0
        x hx
      simp only [List.map_cons, List.map_nil, List.mem_singleton,
        recPhase] at hy
      subst hy
      omega
  · intro j hj e he
    have hmem := researchStreamAux_mem_completion enrich items.length items
      0 j hj
    rw [he] at hmem
    rw [Nat.zero_add] at hmem
    exact List.mem_append_left _ hmem

/-- Witness for C8: a concrete two-item batch in which every item errors
still ends with the `complete` record. -/
theorem research_stream_progress_witness :
    (researchStream (fun _ => Except.error "Failed to research this item")
      [ItineraryItem.mk "r1" "Sushi Fumi" "restaurant" 40 "$40" none
        (some [34, -118]),
       ItineraryItem.mk "h1" "Grand Hotel" "hotel" 200 "$200" none
        (some [34, -118])]).getLast? =
      some (ResearchRecord.complete
        (researchResults
          (fun _ => Except.error "Failed to research this item")
          [ItineraryItem.mk "r1" "Sushi Fumi" "restaurant" 40 "$40" none
            (some [34, -118]),
           ItineraryItem.mk "h1" "Grand Hotel" "hotel" 200 "$200" none
            (some [34, -118])]) 2) :=
  (research_stream_progress
    (fun _ => Except.error "Failed to research this item")
    [ItineraryItem.mk "r1" "Sushi Fumi" "restaurant" 40 "$40" none
      (some [34, -118]),
     ItineraryItem.mk "h1" "Grand Hotel" "hotel" 200 "$200" none
      (some [34, -118])] (by decide)).2.2.1

end NomadSync
